import Mathlib

/-!
# Verification of the sandboxed code-execution subsystem

Shallow embedding of `src/datagrep/backend/services/code_executor.py`.

The Python function `execute_python_code` drives a Docker client through one
sandboxed execution: it prepares read-only file mounts, database environment
variables and an optional named network, writes the code to a transient file,
runs a container, waits with a timeout, collects the logs, best-effort parses
the output as JSON, and cleans up the container and the transient file in
`finally` blocks.

The embedding is parameterised by a `DockerEnv` record that fixes the outcome
of every call into the external world (the Docker daemon, the filesystem, the
wall clock, the JSON parser of the standard library).  `executeModel` then
computes, purely, the returned dictionary (or the escaping exception), the
final state of the transient resources, and the trace of effectful calls
issued, following the Python control flow line by line.
-/

set_option linter.unusedVariables false

namespace CodeExecutor

/-- Structured values recovered from output text (the possible results of
Python's `json.loads`).  The parser itself is modelled abstractly as a field
of `DockerEnv`, so the constructors are only needed to build concrete
environments. -/
inductive JsonValue where
  | null : JsonValue
  | bool (b : Bool) : JsonValue
  | num (q : ℚ) : JsonValue
  | str (s : String) : JsonValue
  | arr (elems : List JsonValue) : JsonValue
  | obj (fields : List (String × JsonValue)) : JsonValue

/-- The dictionary returned by `execute_python_code` (docstring, lines 46-54):
exactly the five keys `status`, `output`, `error`, `execution_time`,
`result_data`. -/
structure ExecutionResult where
  status : String
  output : String
  error : Option String
  execution_time : ℚ
  result_data : Option JsonValue

/-- A read-only bind mount: host path, sandbox path, access mode. -/
abbrev Mount := String × String × String

/-- The effectful calls `execute_python_code` can issue, in order. -/
inductive Action where
  | getClient : Action
  | writeTempFile (path code : String) : Action
  | listNetworks : Action
  | runContainer (image : String) (command : List String) (volumes : List Mount)
      (envVars : List (String × String)) (network : Option String) : Action
  | waitContainer (timeout : Int) : Action
  | stopContainer : Action
  | getLogs : Action
  | removeContainerForce : Action
  | removeTempFile (path : String) : Action
  deriving DecidableEq

/-- What `client.containers.run(**run_kwargs)` does (line 140). -/
inductive RunOutcome where
  | started : RunOutcome
  | imageNotFound : RunOutcome
  | containerError (msg : String) : RunOutcome
  | otherError (msg : String) : RunOutcome
  deriving DecidableEq

/-- `db_config`: an optional mapping of connection parameters; each key may be
absent (`db_config.get(key, default)`). -/
structure DbConfig where
  host : Option String := none
  port : Option String := none
  database : Option String := none
  user : Option String := none
  password : Option String := none

/-- Outcomes of every external call made during one request.  `clock n` is the
value returned by the `n`-th call to `time.time()`; `hostExists` is
`os.path.exists`; `getenv` is `os.getenv`; `loads` is `json.loads` returning
`none` when it raises; the remaining fields fix the Docker client's
behaviour. -/
structure DockerEnv where
  clock : Nat → ℚ
  clientOk : Bool
  clientErrMsg : String
  hostExists : String → Bool
  getenv : String → Option String
  cwdBase : String
  tempPath : String
  networksResult : Option (List String)
  runOutcome : RunOutcome
  waitTimesOut : Bool
  logsOk : Bool
  logsText : String
  logsErrMsg : String
  removeOk : Bool
  tempRemoveOk : Bool
  loads : String → Option JsonValue

/-- State of the transient resources owned by one request, as observable when
`execute_python_code` returns. -/
structure World where
  tempFileExists : Bool
  containerExists : Bool
  containerRunning : Bool
  deriving DecidableEq

/-- Everything one call produces: the returned dictionary (`.ok`) or the
escaping exception (`.error`), the final resource state, and the trace of
external calls. -/
structure ExecOut where
  result : Except String ExecutionResult
  world : World
  trace : List Action

/-- Python's `round(x, 2)` uses round-half-to-even. -/
def roundHalfEven (q : ℚ) : ℤ :=
  if q - ⌊q⌋ < 1 / 2 then ⌊q⌋
  else if 1 / 2 < q - ⌊q⌋ then ⌊q⌋ + 1
  else if 2 ∣ ⌊q⌋ then ⌊q⌋ else ⌊q⌋ + 1

/-- `round(execution_time, 2)`: round to two decimal places. -/
def pythonRound2 (q : ℚ) : ℚ := (roundHalfEven (q * 100) : ℚ) / 100

/-- The whitespace characters stripped by Python's `str.strip()`. -/
def pyIsSpace (c : Char) : Bool :=
  c = ' ' || c = '\t' || c = '\n' || c = '\r' || c = '\x0b' || c = '\x0c'

/-- `str.strip()` on a character list: drop whitespace from both ends. -/
def stripList (l : List Char) : List Char :=
  ((l.dropWhile pyIsSpace).reverse.dropWhile pyIsSpace).reverse

/-- `str.strip()`. -/
def pyStrip (s : String) : String := String.mk (stripList s.data)

/-- `str.split('\n')` on a character list: Python's split never returns an
empty list and keeps empty pieces. -/
def splitLinesL : List Char → List (List Char)
  | [] => [[]]
  | c :: cs =>
    match splitLinesL cs with
    | [] => [[c]]
    | h :: t => if c = '\n' then [] :: h :: t else (c :: h) :: t

/-- `str.split('\n')`. -/
def pySplitNL (s : String) : List String := (splitLinesL s.data).map String.mk

/-- `os.path.basename`: the part after the last `/`. -/
def pyBasename (s : String) : String := (s.splitOn "/").getLastD ""

/-- Lines 59-68: the read-only mounts.  Each requested path that exists on the
host is bound to `/data/<basename>` read-only; missing paths are skipped. -/
def prepareBinds (hostExists : String → Bool) (file_paths : List String) : List Mount :=
  file_paths.filterMap fun file_path =>
    if hostExists file_path then
      some (file_path, "/data/" ++ pyBasename file_path, "ro")
    else none

/-- Lines 70-78: the PostgreSQL environment variables, populated only when
`db_config` is given, each field falling back to `os.getenv` and then to a
hard-coded default. -/
def prepareEnvVars (getenv : String → Option String) (db_config : Option DbConfig) :
    List (String × String) :=
  match db_config with
  | none => []
  | some cfg =>
    [("POSTGRES_HOST", cfg.host.getD ((getenv "POSTGRES_HOST").getD "db")),
     ("POSTGRES_PORT", cfg.port.getD ((getenv "POSTGRES_PORT").getD "5432")),
     ("POSTGRES_DB", cfg.database.getD ((getenv "POSTGRES_DB").getD "datagrep")),
     ("POSTGRES_USER", cfg.user.getD ((getenv "POSTGRES_USER").getD "datagrep")),
     ("POSTGRES_PASSWORD", cfg.password.getD ((getenv "POSTGRES_PASSWORD").getD "datagrep_dev"))]

/-- The candidate network names probed at lines 105-109: the exact target and
two docker-compose-prefixed variants. -/
def possibleNames (cwdBase : String) : List String :=
  ["datagrep-network", "datagrep_" ++ "datagrep-network", cwdBase ++ "_" ++ "datagrep-network"]

/-- Lines 96-117: resolve the named network.  Nothing is resolved when
`db_config` is absent; when `client.networks.list()` raises, the exception is
swallowed and no network is used; otherwise the first candidate name present
among the listed networks is chosen. -/
def resolveNetworkName (db_config : Option DbConfig) (networksResult : Option (List String))
    (cwdBase : String) : Option String :=
  match db_config with
  | none => none
  | some _ =>
    match networksResult with
    | none => none
    | some network_names => (possibleNames cwdBase).find? fun n => network_names.contains n

/-- Lines 160-173: best-effort JSON recovery from the captured output.  The
output is stripped and split into lines; the last line is tried first, then
the whole stripped text; both failures leave `result_data` as `None`. -/
def interpretOutput (loads : String → Option JsonValue) (output_text : String) :
    Option JsonValue :=
  let output_lines := pySplitNL (pyStrip output_text)
  if output_lines.isEmpty then none
  else
    match loads (output_lines.getLastD "") with
    | some v => some v
    | none => loads (pyStrip output_text)

/-- Intermediate state after the inner `try` body and its `except` clauses
(lines 121-218), before the container-cleanup `finally`. -/
structure InnerOut where
  result : Except String ExecutionResult
  created : Bool
  running : Bool
  trace : List Action

/-- Lines 119-218: run the container, wait with the timeout, collect and parse
the logs, and classify every failure.

* `imageNotFound` (line 201): a fixed "not provisioned" error result.
* `containerError` (line 183): `container` is still `None` when
  `client.containers.run` raises, so the log-extraction fallback at lines
  187-193 is skipped and the exception text itself is the error.
* any other exception from `run` (line 210): wrapped as `Execution failed:`.
* a wait exceeding the timeout (lines 143-148): the container is stopped, and
  the re-raised timeout exception is caught by the generic handler at line
  210, producing an `error` result whose message names the timeout.
* a failure while fetching logs: also caught by the generic handler.
* otherwise (lines 150-181): decode the logs, record the elapsed time, parse
  the output, and return a `success` result. -/
def runAndCollect (env : DockerEnv) (timeout : Int) (image : String) (command : List String)
    (volumes : List Mount) (envVars : List (String × String)) (network : Option String) :
    InnerOut :=
  let start_time := env.clock 0
  let runAct := Action.runContainer image command volumes envVars network
  match env.runOutcome with
  | .imageNotFound =>
    { result := .ok
        { status := "error"
          output := ""
          error := some "Sandbox image not found. Please build the sandbox image first."
          execution_time := pythonRound2 (env.clock 1 - start_time)
          result_data := none }
      created := false, running := false, trace := [runAct] }
  | .containerError eMsg =>
    { result := .ok
        { status := "error"
          output := ""
          error := some eMsg
          execution_time := pythonRound2 (env.clock 1 - start_time)
          result_data := none }
      created := false, running := false, trace := [runAct] }
  | .otherError eMsg =>
    { result := .ok
        { status := "error"
          output := ""
          error := some ("Execution failed: " ++ eMsg)
          execution_time := pythonRound2 (env.clock 1 - start_time)
          result_data := none }
      created := false, running := false, trace := [runAct] }
  | .started =>
    if env.waitTimesOut then
      { result := .ok
          { status := "error"
            output := ""
            error := some ("Execution failed: Container execution timed out after "
              ++ toString timeout ++ " seconds")
            execution_time := pythonRound2 (env.clock 1 - start_time)
            result_data := none }
        created := true, running := false
        trace := [runAct, .waitContainer timeout, .stopContainer] }
    else if env.logsOk then
      let output_text := env.logsText
      { result := .ok
          { status := "success"
            output := output_text
            error := none
            execution_time := pythonRound2 (env.clock 1 - start_time)
            result_data := interpretOutput env.loads output_text }
        created := true, running := false
        trace := [runAct, .waitContainer timeout, .getLogs] }
    else
      { result := .ok
          { status := "error"
            output := ""
            error := some ("Execution failed: " ++ env.logsErrMsg)
            execution_time := pythonRound2 (env.clock 1 - start_time)
            result_data := none }
        created := true, running := false
        trace := [runAct, .waitContainer timeout, .getLogs] }

/-- Lines 219-225: the inner `finally`.  If a container was created it is
force-removed; a failure of the removal is swallowed and leaves the container
in place. -/
def applyContainerCleanup (env : DockerEnv) (inner : InnerOut) : InnerOut :=
  if inner.created then
    { result := inner.result
      created := inner.created
      running := inner.running
      trace := inner.trace ++ [.removeContainerForce] }
  else inner

/-- `execute_python_code(code, file_paths, db_config, timeout)` (lines
31-233).  `timeoutArg = none` models a caller omitting the argument, in which
case Python's default value `60` applies.  The model returns the result (or
the exception raised when the Docker client cannot be acquired, line 57), the
final state of the transient resources, and the trace of external calls. -/
def executeModel (env : DockerEnv) (code : String) (file_paths : List String)
    (db_config : Option DbConfig) (timeoutArg : Option Int) : ExecOut :=
  let timeout := timeoutArg.getD 60
  let start_time := env.clock 0
  if env.clientOk then
    let binds := prepareBinds env.hostExists file_paths
    let env_vars := prepareEnvVars env.getenv db_config
    -- lines 80-83: the code is written to a transient file
    let image_name := "datagrep-sandbox:latest"
    let volumes_dict : List Mount := (env.tempPath, "/code/script.py", "ro") :: binds
    let network_name := resolveNetworkName db_config env.networksResult env.cwdBase
    let inner := runAndCollect env timeout image_name ["python", "/code/script.py"]
      volumes_dict env_vars network_name
    let cleaned := applyContainerCleanup env inner
    -- lines 227-233: the outer finally removes the transient code file;
    -- a failure of `os.remove` is swallowed and leaves the file in place
    { result := cleaned.result
      world :=
        { tempFileExists := !env.tempRemoveOk
          containerExists := cleaned.created && !env.removeOk
          containerRunning := cleaned.running }
      trace := [Action.getClient, Action.writeTempFile env.tempPath code]
        ++ (if db_config.isSome then [Action.listNetworks] else [])
        ++ cleaned.trace ++ [Action.removeTempFile env.tempPath] }
  else
    -- line 57: `get_docker_client` raises before any resource is allocated
    { result := .error ("Failed to connect to Docker: " ++ env.clientErrMsg)
      world := { tempFileExists := false, containerExists := false, containerRunning := false }
      trace := [Action.getClient] }

/-! ## Definitions for the output-interpreter claim -/

/-- The characters that terminate a line scan (everything except newline). -/
def notNL (c : Char) : Bool := !(c == '\n')

/-- The suffix of a character list after its last newline (as a reverse
`takeWhile`). -/
def lastSegF (l : List Char) : List Char := (l.reverse.takeWhile notNL).reverse

/-- Whether a line is non-empty in the sense of the specification: it
contains at least one non-whitespace character (a blank line does not
count). -/
def hasContent (line : List Char) : Bool := line.any fun c => !(pyIsSpace c)

/-- Canonical form of "the stripped last non-empty line": drop trailing
whitespace, take the last line, drop its leading whitespace. -/
def canonLastLine (l : List Char) : List Char :=
  ((l.reverse.dropWhile pyIsSpace).takeWhile notNL).reverse.dropWhile pyIsSpace

/-- Stated from the claim's words, to be compared with the source-derived
`interpretOutput`: the last non-empty line of the text, a line counting as
empty when it is blank (only whitespace). -/
def lastNonEmptyLineSpec (s : String) : String :=
  String.mk (((splitLinesL s.data).filter hasContent).getLastD [])

/-- Stated from the claim's words, to be compared with the source-derived
`interpretOutput`: if the last non-empty line parses, its value; otherwise,
if the entire text parses, that value; otherwise nothing (absence, not an
error). -/
def interpretSpec (loads : String → Option JsonValue) (s : String) : Option JsonValue :=
  match loads (lastNonEmptyLineSpec s) with
  | some v => some v
  | none => loads s

/-! ## Concrete environments used to instantiate the theorems -/

/-- A fully healthy environment: reachable Docker daemon, image present, wait
completes, logs decode to `"42"`, both cleanup operations succeed; the JSON
parser recognises exactly the text `42`. -/
def envBase : DockerEnv where
  clock := fun _ => 0
  clientOk := true
  clientErrMsg := ""
  hostExists := fun p => p == "/tmp/a.csv"
  getenv := fun _ => none
  cwdBase := "app"
  tempPath := "/tmp/tmpcode.py"
  networksResult := some ["datagrep_datagrep-network"]
  runOutcome := .started
  waitTimesOut := false
  logsOk := true
  logsText := "42"
  logsErrMsg := "logs unavailable"
  removeOk := true
  tempRemoveOk := true
  loads := fun s => if s == "42" then some (.num 42) else none

/-- `envBase`, except that the wait on the container exceeds the timeout. -/
def envTimedOut : DockerEnv := { envBase with waitTimesOut := true }

/-- `envBase`, except that the sandbox image is absent. -/
def envNoImage : DockerEnv := { envBase with runOutcome := .imageNotFound }

/-- The success record produced by a run against `envBase`. -/
def resBaseSuccess : ExecutionResult :=
  { status := "success"
    output := envBase.logsText
    error := none
    execution_time := pythonRound2 (envBase.clock 1 - envBase.clock 0)
    result_data := interpretOutput envBase.loads envBase.logsText }

/-- A whitespace-insensitive parser stub recognising exactly the text `7`,
used to instantiate the output-interpreter claim. -/
def loadsW : String → Option JsonValue :=
  fun s => if pyStrip s = "7" then some (.num 7) else none

/-! ## General lemmas about the model -/

/-- The inner `finally` never changes the result being returned. -/
theorem applyContainerCleanup_result (env : DockerEnv) (i : InnerOut) :
    (applyContainerCleanup env i).result = i.result := by
  unfold applyContainerCleanup; split <;> rfl

/-- The inner `finally` never changes whether a container was created. -/
theorem applyContainerCleanup_created (env : DockerEnv) (i : InnerOut) :
    (applyContainerCleanup env i).created = i.created := by
  unfold applyContainerCleanup; split <;> rfl

/-- The inner `finally` keeps the previous trace. -/
theorem applyContainerCleanup_trace_mem (env : DockerEnv) (i : InnerOut) (a : Action)
    (h : a ∈ i.trace) : a ∈ (applyContainerCleanup env i).trace := by
  unfold applyContainerCleanup; split
  · exact List.mem_append_left _ h
  · exact h

/-- Case analysis on the inner `try` block: it always returns a dictionary
(never raises), the elapsed time is always the difference of the two clock
readings rounded to two decimals, and the dictionary is either the success
record built from the logs or an error record with empty output, no result
data, and some error message. -/
theorem runAndCollect_cases (env : DockerEnv) (timeout : Int) (image : String)
    (command : List String) (volumes : List Mount) (envVars : List (String × String))
    (network : Option String) :
    ∃ r, (runAndCollect env timeout image command volumes envVars network).result = .ok r ∧
      r.execution_time = pythonRound2 (env.clock 1 - env.clock 0) ∧
      ((r.status = "success" ∧ r.error = none ∧ r.output = env.logsText ∧
          r.result_data = interpretOutput env.loads env.logsText) ∨
        (r.status = "error" ∧ (∃ m, r.error = some m) ∧ r.output = "" ∧
          r.result_data = none)) := by
  cases hro : env.runOutcome with
  | imageNotFound =>
    simp only [runAndCollect, hro]
    exact ⟨_, rfl, rfl, Or.inr ⟨rfl, ⟨_, rfl⟩, rfl, rfl⟩⟩
  | containerError eMsg =>
    simp only [runAndCollect, hro]
    exact ⟨_, rfl, rfl, Or.inr ⟨rfl, ⟨_, rfl⟩, rfl, rfl⟩⟩
  | otherError eMsg =>
    simp only [runAndCollect, hro]
    exact ⟨_, rfl, rfl, Or.inr ⟨rfl, ⟨_, rfl⟩, rfl, rfl⟩⟩
  | started =>
    simp only [runAndCollect, hro]
    cases hw : env.waitTimesOut with
    | true =>
      simp only [if_pos rfl, Bool.true_eq_false]
      exact ⟨_, rfl, rfl, Or.inr ⟨rfl, ⟨_, rfl⟩, rfl, rfl⟩⟩
    | false =>
      rw [if_neg (by decide : ¬(false = true))]
      cases hl : env.logsOk with
      | true =>
        simp only [if_pos rfl]
        exact ⟨_, rfl, rfl, Or.inl ⟨rfl, rfl, rfl, rfl⟩⟩
      | false =>
        rw [if_neg (by decide : ¬(false = true))]
        exact ⟨_, rfl, rfl, Or.inr ⟨rfl, ⟨_, rfl⟩, rfl, rfl⟩⟩

/-- A container is created exactly on the `started` outcome. -/
theorem runAndCollect_created (env : DockerEnv) (timeout : Int) (image : String)
    (command : List String) (volumes : List Mount) (envVars : List (String × String))
    (network : Option String) :
    (runAndCollect env timeout image command volumes envVars network).created =
      decide (env.runOutcome = RunOutcome.started) := by
  cases hro : env.runOutcome <;>
    simp only [runAndCollect, hro] <;>
    first
      | rfl
      | (cases hw : env.waitTimesOut <;> cases hl : env.logsOk <;> simp)

/-- The `client.containers.run` call is always issued (first in the inner
trace). -/
theorem runAndCollect_run_mem (env : DockerEnv) (timeout : Int) (image : String)
    (command : List String) (volumes : List Mount) (envVars : List (String × String))
    (network : Option String) :
    Action.runContainer image command volumes envVars network ∈
      (runAndCollect env timeout image command volumes envVars network).trace := by
  cases hro : env.runOutcome <;>
    simp only [runAndCollect, hro] <;>
    first
      | simp
      | (cases hw : env.waitTimesOut <;> cases hl : env.logsOk <;> simp)

/-- On the `started` outcome the wait with the given timeout is issued. -/
theorem runAndCollect_wait_mem (env : DockerEnv) (timeout : Int) (image : String)
    (command : List String) (volumes : List Mount) (envVars : List (String × String))
    (network : Option String) (h : env.runOutcome = RunOutcome.started) :
    Action.waitContainer timeout ∈
      (runAndCollect env timeout image command volumes envVars network).trace := by
  simp only [runAndCollect, h]
  cases hw : env.waitTimesOut <;> cases hl : env.logsOk <;> simp

/-- Round-half-even of a non-negative rational is non-negative. -/
theorem roundHalfEven_nonneg (q : ℚ) (h : 0 ≤ q) : 0 ≤ roundHalfEven q := by
  have hf : (0 : ℤ) ≤ ⌊q⌋ := Int.floor_nonneg.mpr h
  unfold roundHalfEven
  split_ifs <;> omega

/-- Rounding to two decimal places preserves non-negativity. -/
theorem pythonRound2_nonneg (q : ℚ) (h : 0 ≤ q) : 0 ≤ pythonRound2 q := by
  unfold pythonRound2
  have h1 : (0 : ℚ) ≤ (roundHalfEven (q * 100) : ℚ) := by
    exact_mod_cast roundHalfEven_nonneg _ (by positivity)
  positivity

/-- The result of `executeModel` is the result of the inner block whenever the
Docker client was acquired. -/
theorem executeModel_result (env : DockerEnv) (code : String) (file_paths : List String)
    (db_config : Option DbConfig) (timeoutArg : Option Int) (h : env.clientOk = true) :
    (executeModel env code file_paths db_config timeoutArg).result =
      (runAndCollect env (timeoutArg.getD 60) "datagrep-sandbox:latest"
        ["python", "/code/script.py"]
        ((env.tempPath, "/code/script.py", "ro") :: prepareBinds env.hostExists file_paths)
        (prepareEnvVars env.getenv db_config)
        (resolveNetworkName db_config env.networksResult env.cwdBase)).result := by
  simp only [executeModel, h, if_pos rfl]
  exact applyContainerCleanup_result _ _


/-- No branch of the inner block leaves the container running. -/
theorem runAndCollect_running (env : DockerEnv) (timeout : Int) (image : String)
    (command : List String) (volumes : List Mount) (envVars : List (String × String))
    (network : Option String) :
    (runAndCollect env timeout image command volumes envVars network).running = false := by
  cases hro : env.runOutcome <;>
    simp only [runAndCollect, hro] <;>
    first
      | rfl
      | (cases hw : env.waitTimesOut <;> cases hl : env.logsOk <;> simp)

/-- The inner `finally` does not change the `running` flag. -/
theorem applyContainerCleanup_running (env : DockerEnv) (i : InnerOut) :
    (applyContainerCleanup env i).running = i.running := by
  unfold applyContainerCleanup; split <;> rfl

/-- Whenever a container was created, the inner `finally` issues the forced
removal. -/
theorem applyContainerCleanup_remove_mem (env : DockerEnv) (i : InnerOut)
    (h : i.created = true) :
    Action.removeContainerForce ∈ (applyContainerCleanup env i).trace := by
  simp [applyContainerCleanup, h]


/-! ## Lemmas about line splitting and stripping -/

/-- Python's `split` never returns an empty list. -/
theorem splitLinesL_ne_nil (l : List Char) : splitLinesL l ≠ [] := by
  cases l with
  | nil => simp [splitLinesL]
  | cons c cs =>
    simp only [splitLinesL]
    cases hs : splitLinesL cs with
    | nil => simp
    | cons h t => by_cases hc : c = '\n' <;> simp [hc]

/-- A text without newline is a single line. -/
theorem not_mem_splitLinesL (l : List Char) (h : '\n' ∉ l) : splitLinesL l = [l] := by
  induction l with
  | nil => rfl
  | cons c cs ih =>
    have hc : ¬(c = '\n') := by intro hh; subst hh; exact h (List.mem_cons_self _ _)
    have hcs : '\n' ∉ cs := fun hh => h (List.mem_cons_of_mem c hh)
    simp only [splitLinesL, ih hcs]
    rw [if_neg hc]

/-- A text with a newline splits into at least two lines. -/
theorem mem_splitLinesL_two (l : List Char) (h : '\n' ∈ l) :
    ∃ a b t, splitLinesL l = a :: b :: t := by
  induction l with
  | nil => exact absurd h (List.not_mem_nil _)
  | cons c cs ih =>
    by_cases hc : c = '\n'
    · subst hc
      obtain ⟨h1, t1, hs⟩ : ∃ h1 t1, splitLinesL cs = h1 :: t1 := by
        cases hs : splitLinesL cs with
        | nil => exact absurd hs (splitLinesL_ne_nil cs)
        | cons a b => exact ⟨a, b, rfl⟩
      exact ⟨[], h1, t1, by simp only [splitLinesL, hs, if_true]⟩
    · have hcs : '\n' ∈ cs := by
        rcases List.mem_cons.mp h with h1 | h1
        · exact absurd h1.symm hc
        · exact h1
      obtain ⟨a, b, t, hs⟩ := ih hcs
      refine ⟨c :: a, b, t, ?_⟩
      simp only [splitLinesL, hs]
      rw [if_neg hc]

/-- Appending one element that fails the predicate does not change a
`takeWhile`. -/
theorem takeWhile_append_singleton_neg {α : Type} {p : α → Bool} {a : α} (xs : List α)
    (h : p a = false) : (xs ++ [a]).takeWhile p = xs.takeWhile p := by
  rw [List.takeWhile_append]
  split
  · rename_i hlen
    have hx : xs.takeWhile p = xs := (List.takeWhile_prefix p).eq_of_length hlen
    rw [hx]
    simp [List.takeWhile_cons, h]
  · rfl

/-- `takeWhile` over an append stops inside the first part as soon as that
part has a failing element. -/
theorem takeWhile_append_of_exists_neg {α : Type} {p : α → Bool} (xs ys : List α)
    (h : ∃ x ∈ xs, p x = false) : (xs ++ ys).takeWhile p = xs.takeWhile p := by
  rw [List.takeWhile_append]
  split
  · rename_i hlen
    have hx : xs.takeWhile p = xs := (List.takeWhile_prefix p).eq_of_length hlen
    obtain ⟨x, hxm, hxf⟩ := h
    have hmem : x ∈ xs.takeWhile p := by rw [hx]; exact hxm
    have := List.mem_takeWhile_imp hmem
    rw [this] at hxf
    cases hxf
  · rfl

/-- `dropWhile` over an append stays inside the first part as soon as that
part has a failing element. -/
theorem dropWhile_append_of_exists_neg {α : Type} {p : α → Bool} (xs ys : List α)
    (h : ∃ x ∈ xs, p x = false) : (xs ++ ys).dropWhile p = xs.dropWhile p ++ ys := by
  rw [List.dropWhile_append]
  split
  · rename_i hemp
    obtain ⟨x, hxm, hxf⟩ := h
    have hnil : xs.dropWhile p = [] := List.isEmpty_iff.mp hemp
    have := List.dropWhile_eq_nil_iff.mp hnil x hxm
    rw [this] at hxf
    cases hxf
  · rfl

/-- The last piece of the line split is the segment after the last
newline. -/
theorem getLastD_splitLinesL (l : List Char) : (splitLinesL l).getLastD [] = lastSegF l := by
  induction l with
  | nil => rfl
  | cons c cs ih =>
    cases hs : splitLinesL cs with
    | nil => exact absurd hs (splitLinesL_ne_nil cs)
    | cons h t =>
      by_cases hc : c = '\n'
      · subst hc
        simp only [splitLinesL, hs, if_true]
        rw [List.getLastD_cons, ← hs, ih]
        unfold lastSegF
        rw [List.reverse_cons, takeWhile_append_singleton_neg _ (by decide)]
      · simp only [splitLinesL, hs]
        rw [if_neg hc]
        cases t with
        | nil =>
          have hnm : '\n' ∉ cs := by
            intro hmem
            obtain ⟨a, b, t2, habs⟩ := mem_splitLinesL_two cs hmem
            rw [hs] at habs
            simp at habs
          have hcs : h = cs := by
            have h2 := not_mem_splitLinesL cs hnm
            rw [hs] at h2
            simpa using h2
          subst hcs
          have hall : ∀ a ∈ h.reverse, notNL a = true := by
            intro a ha
            have ham : a ∈ h := List.mem_reverse.mp ha
            have hane : a ≠ '\n' := fun he => hnm (he ▸ ham)
            simp [notNL, hane]
          have hcne : notNL c = true := by simp [notNL, hc]
          show c :: h = lastSegF (c :: h)
          unfold lastSegF
          rw [List.reverse_cons, List.takeWhile_append_of_pos hall]
          simp [List.takeWhile_cons, hcne]
        | cons t1 ts =>
          have hnl : '\n' ∈ cs := by
            by_contra hno
            have h2 := not_mem_splitLinesL cs hno
            rw [hs] at h2
            simp at h2
          rw [List.getLastD_cons, List.getLastD_cons]
          have hih := ih
          rw [hs, List.getLastD_cons, List.getLastD_cons] at hih
          rw [hih]
          unfold lastSegF
          rw [List.reverse_cons,
            takeWhile_append_of_exists_neg _ _ ⟨'\n', List.mem_reverse.mpr hnl, by decide⟩]

/-- Splitting after appending a newline appends one empty line. -/
theorem splitLinesL_append_newline (xs : List Char) :
    splitLinesL (xs ++ ['\n']) = splitLinesL xs ++ [[]] := by
  induction xs with
  | nil => rfl
  | cons x xs ih =>
    cases hs : splitLinesL xs with
    | nil => exact absurd hs (splitLinesL_ne_nil xs)
    | cons h t =>
      by_cases hx : x = '\n' <;>
        simp [splitLinesL, ih, hs, hx]

/-- Splitting after appending a non-newline character extends the last
line. -/
theorem splitLinesL_append_char (xs : List Char) (c : Char) (hc : c ≠ '\n') :
    splitLinesL (xs ++ [c]) =
      (splitLinesL xs).dropLast ++ [(splitLinesL xs).getLastD [] ++ [c]] := by
  induction xs with
  | nil => simp [splitLinesL, hc]
  | cons x xs ih =>
    cases hs : splitLinesL xs with
    | nil => exact absurd hs (splitLinesL_ne_nil xs)
    | cons h t =>
      cases t with
      | nil =>
        by_cases hx : x = '\n' <;>
          simp [splitLinesL, ih, hs, hx, List.getLastD_cons, hc]
      | cons t1 ts =>
        by_cases hx : x = '\n' <;>
          simp [splitLinesL, ih, hs, hx, List.getLastD_cons, hc]

/-- `strip` as a left strip followed by a Mathlib right strip. -/
theorem stripList_eq (l : List Char) :
    stripList l = (l.dropWhile pyIsSpace).rdropWhile pyIsSpace := rfl

/-- The head of a non-empty `dropWhile` residue fails the predicate. -/
theorem dropWhile_head_false {α : Type} (p : α → Bool) {l : List α} {a : α} {as : List α}
    (h : l.dropWhile p = a :: as) : p a = false := by
  have hw := List.head?_dropWhile_not p l
  rw [h] at hw
  simpa using hw

/-- A stripped text has no leading whitespace left. -/
theorem dropWhile_stripList (l : List Char) :
    (stripList l).dropWhile pyIsSpace = stripList l := by
  rw [stripList_eq]
  cases hu : l.dropWhile pyIsSpace with
  | nil => rfl
  | cons a us =>
    have ha : pyIsSpace a = false := dropWhile_head_false pyIsSpace hu
    obtain ⟨t, ht⟩ := List.rdropWhile_prefix (p := pyIsSpace) (l := a :: us)
    cases hrd : List.rdropWhile pyIsSpace (a :: us) with
    | nil => rfl
    | cons b bs =>
      rw [hrd] at ht
      have hb : b = a := by
        have hh := congrArg List.head? ht
        simpa using hh
      rw [List.dropWhile_cons, hb, ha]
      simp

/-- `strip` is idempotent. -/
theorem stripList_idem (l : List Char) : stripList (stripList l) = stripList l := by
  calc stripList (stripList l)
      = List.rdropWhile pyIsSpace ((stripList l).dropWhile pyIsSpace) := rfl
    _ = List.rdropWhile pyIsSpace (stripList l) := by rw [dropWhile_stripList]
    _ = List.rdropWhile pyIsSpace (List.rdropWhile pyIsSpace (l.dropWhile pyIsSpace)) := by
        rw [stripList_eq]
    _ = List.rdropWhile pyIsSpace (l.dropWhile pyIsSpace) := List.rdropWhile_idempotent _ _
    _ = stripList l := (stripList_eq l).symm

/-- Python's `strip` is idempotent. -/
theorem pyStrip_idem (s : String) : pyStrip (pyStrip s) = pyStrip s :=
  congrArg String.mk (stripList_idem s.data)

/-- Stripping a list ending in a non-whitespace character only strips from
the left. -/
theorem stripList_concat_not_space (z : List Char) (c : Char) (h : pyIsSpace c = false) :
    stripList (z ++ [c]) = (z ++ [c]).dropWhile pyIsSpace := by
  obtain ⟨z2, hz⟩ : ∃ z2, (z ++ [c]).dropWhile pyIsSpace = z2 ++ [c] := by
    rw [List.dropWhile_append]
    split
    · refine ⟨[], ?_⟩
      rw [List.dropWhile_cons]
      simp [h]
    · exact ⟨z.dropWhile pyIsSpace, rfl⟩
  rw [stripList_eq, hz, List.rdropWhile_concat_neg]
  simp [h]

/-- Appending one whitespace character does not change the stripped text. -/
theorem stripList_concat_space (L : List Char) (c : Char) (hc : pyIsSpace c = true) :
    stripList (L ++ [c]) = stripList L := by
  rw [stripList_eq, stripList_eq, List.dropWhile_append]
  split
  · rename_i hemp
    have hnil : L.dropWhile pyIsSpace = [] := List.isEmpty_iff.mp hemp
    rw [hnil, List.dropWhile_cons, hc]
    simp
  · rw [List.rdropWhile_concat_pos]
    exact hc

/-- Stripping the segment after the last newline of a stripped text is the
canonical stripped last line. -/
theorem strip_lastSegF_stripList (l : List Char) :
    stripList (lastSegF (stripList l)) = canonLastLine l := by
  have h1 : lastSegF (stripList l) =
      (((l.dropWhile pyIsSpace).reverse.dropWhile pyIsSpace).takeWhile notNL).reverse := by
    unfold lastSegF stripList
    rw [List.reverse_reverse]
  rw [h1]
  have hA : stripList ((((l.dropWhile pyIsSpace).reverse.dropWhile pyIsSpace).takeWhile
        notNL).reverse)
      = ((((l.dropWhile pyIsSpace).reverse.dropWhile pyIsSpace).takeWhile
        notNL).reverse).dropWhile pyIsSpace := by
    cases hT2 : ((l.dropWhile pyIsSpace).reverse.dropWhile pyIsSpace).takeWhile notNL with
    | nil => rfl
    | cons t0 tr =>
      have hhead : pyIsSpace t0 = false := by
        cases hRc : (l.dropWhile pyIsSpace).reverse.dropWhile pyIsSpace with
        | nil => rw [hRc] at hT2; simp at hT2
        | cons r rs =>
          have hr : pyIsSpace r = false := dropWhile_head_false pyIsSpace hRc
          rw [hRc, List.takeWhile_cons] at hT2
          by_cases hnr : notNL r = true
          · rw [if_pos hnr] at hT2
            have ht0 : r = t0 := by
              have hh := congrArg List.head? hT2
              simpa using hh
            rw [← ht0]
            exact hr
          · rw [if_neg hnr] at hT2
            simp at hT2
      rw [List.reverse_cons]
      exact stripList_concat_not_space tr.reverse t0 hhead
  rw [hA]
  unfold canonLastLine
  cases hu : l.dropWhile pyIsSpace with
  | nil =>
    have hall : ∀ x ∈ l, pyIsSpace x = true := List.dropWhile_eq_nil_iff.mp hu
    have hlrev : l.reverse.dropWhile pyIsSpace = [] :=
      List.dropWhile_eq_nil_iff.mpr (fun x hx => hall x (List.mem_reverse.mp hx))
    rw [hlrev]
    rfl
  | cons u0 us =>
    have hu0 : pyIsSpace u0 = false := dropWhile_head_false pyIsSpace hu
    have hsplit : l.takeWhile pyIsSpace ++ (u0 :: us) = l := by
      rw [← hu]
      exact List.takeWhile_append_dropWhile pyIsSpace l
    have hwall : ∀ x ∈ (l.takeWhile pyIsSpace).reverse, pyIsSpace x = true :=
      fun x hx => List.mem_takeWhile_imp (List.mem_reverse.mp hx)
    have hlrev : l.reverse = (u0 :: us).reverse ++ (l.takeWhile pyIsSpace).reverse := by
      rw [← List.reverse_append, hsplit]
    have hR2 : l.reverse.dropWhile pyIsSpace =
        (u0 :: us).reverse.dropWhile pyIsSpace ++ (l.takeWhile pyIsSpace).reverse := by
      rw [hlrev]
      exact dropWhile_append_of_exists_neg _ _
        ⟨u0, List.mem_reverse.mpr (List.mem_cons_self _ _), hu0⟩
    rw [hR2]
    by_cases hall : ∀ x ∈ (u0 :: us).reverse.dropWhile pyIsSpace, notNL x = true
    · rw [List.takeWhile_append_of_pos hall, List.takeWhile_eq_self_iff.mpr hall,
        List.reverse_append]
      rw [List.dropWhile_append_of_pos (fun x hx => ?_)]
      have hx2 : x ∈ (l.takeWhile pyIsSpace).reverse :=
        List.takeWhile_subset _ (List.mem_reverse.mp hx)
      exact hwall x hx2
    · push_neg at hall
      obtain ⟨x, hx, hfx⟩ := hall
      have hfx2 : notNL x = false := by simpa using hfx
      rw [takeWhile_append_of_exists_neg _ _ ⟨x, hx, hfx2⟩]

/-- Splitting off the `getLastD` of a non-empty list. -/
theorem dropLast_append_getLastD {α : Type} (S : List α) (d : α) (hne : S ≠ []) :
    S.dropLast ++ [S.getLastD d] = S := by
  have h2 : S.getLastD d = S.getLast hne := by
    rw [List.getLastD_eq_getLast?, List.getLast?_eq_getLast S hne]
    rfl
  rw [h2]
  exact List.dropLast_concat_getLast hne

/-- When the last line has content, filtering keeps it last. -/
theorem filter_getLastD_keep (S : List (List Char)) (hne : S ≠ [])
    (h : hasContent (S.getLastD []) = true) :
    (S.filter hasContent).getLastD [] = S.getLastD [] := by
  conv_lhs => rw [← dropLast_append_getLastD S [] hne]
  rw [List.filter_append,
    show List.filter hasContent [S.getLastD []] = [S.getLastD []] from by
      rw [List.filter_cons, h]; rfl,
    List.getLastD_concat]

/-- When the last line is blank, filtering discards it. -/
theorem filter_getLastD_drop (S : List (List Char)) (hne : S ≠ [])
    (h : hasContent (S.getLastD []) = false) :
    S.filter hasContent = (S.dropLast).filter hasContent := by
  conv_lhs => rw [← dropLast_append_getLastD S [] hne]
  rw [List.filter_append,
    show List.filter hasContent [S.getLastD []] = [] from by
      rw [List.filter_cons, h]; rfl,
    List.append_nil]

/-- A trailing whitespace character does not change the canonical stripped
last line. -/
theorem canonLastLine_concat_space (xs : List Char) (c : Char) (h : pyIsSpace c = true) :
    canonLastLine (xs ++ [c]) = canonLastLine xs := by
  unfold canonLastLine
  rw [List.reverse_append]
  simp only [List.reverse_cons, List.reverse_nil, List.nil_append, List.singleton_append]
  rw [List.dropWhile_cons, h]
  simp

/-- Stripping the last contentful line equals the canonical stripped last
line. -/
theorem strip_filter_last (l : List Char) :
    stripList (((splitLinesL l).filter hasContent).getLastD []) = canonLastLine l := by
  induction l using List.reverseRecOn with
  | nil => rfl
  | append_singleton xs c ih =>
    by_cases hcn : c = '\n'
    · subst hcn
      rw [splitLinesL_append_newline, List.filter_append,
        show List.filter hasContent [([] : List Char)] = [] from rfl,
        List.append_nil, ih]
      exact (canonLastLine_concat_space xs '\n' (by decide)).symm
    · rw [splitLinesL_append_char xs c hcn, List.filter_append]
      by_cases hws : pyIsSpace c = true
      · have hcontent : hasContent ((splitLinesL xs).getLastD [] ++ [c]) =
            hasContent ((splitLinesL xs).getLastD []) := by
          unfold hasContent
          rw [List.any_append]
          simp [hws]
        by_cases hHC : hasContent ((splitLinesL xs).getLastD []) = true
        · rw [show List.filter hasContent [(splitLinesL xs).getLastD [] ++ [c]] =
              [(splitLinesL xs).getLastD [] ++ [c]] from by
              rw [List.filter_cons, hcontent, hHC]; rfl,
            List.getLastD_concat, stripList_concat_space _ c hws]
          rw [filter_getLastD_keep (splitLinesL xs) (splitLinesL_ne_nil xs) hHC] at ih
          rw [ih]
          exact (canonLastLine_concat_space xs c hws).symm
        · have hHCf : hasContent ((splitLinesL xs).getLastD []) = false := by
            simpa using hHC
          rw [show List.filter hasContent [(splitLinesL xs).getLastD [] ++ [c]] = [] from by
              rw [List.filter_cons, hcontent, hHCf]; rfl,
            List.append_nil]
          rw [filter_getLastD_drop (splitLinesL xs) (splitLinesL_ne_nil xs) hHCf] at ih
          rw [ih]
          exact (canonLastLine_concat_space xs c hws).symm
      · have hwsf : pyIsSpace c = false := by simpa using hws
        have hcont : hasContent ((splitLinesL xs).getLastD [] ++ [c]) = true := by
          unfold hasContent
          rw [List.any_append]
          simp [hwsf]
        rw [show List.filter hasContent [(splitLinesL xs).getLastD [] ++ [c]] =
            [(splitLinesL xs).getLastD [] ++ [c]] from by rw [List.filter_cons, hcont]; rfl,
          List.getLastD_concat, stripList_concat_not_space _ c hwsf,
          getLastD_splitLinesL]
        unfold canonLastLine lastSegF
        rw [List.reverse_append]
        simp only [List.reverse_cons, List.reverse_nil, List.nil_append, List.singleton_append]
        rw [List.dropWhile_cons, hwsf]
        simp only [Bool.false_eq_true, if_false]
        rw [List.takeWhile_cons]
        have hcnot : notNL c = true := by simp [notNL, hcn]
        rw [hcnot]
        simp only [if_true]
        rw [List.reverse_cons]

/-- The argument the source hands to the last-line parse attempt and the
claim's last non-empty line agree after stripping. -/
theorem stripList_code_spec_last (l : List Char) :
    stripList ((splitLinesL (stripList l)).getLastD []) =
      stripList (((splitLinesL l).filter hasContent).getLastD []) := by
  rw [getLastD_splitLinesL, strip_lastSegF_stripList, strip_filter_last]

/-- `getLastD` over the `String.mk` image of a line list. -/
theorem map_mk_getLastD (L : List (List Char)) (d : List Char) :
    (L.map String.mk).getLastD (String.mk d) = String.mk (L.getLastD d) := by
  induction L generalizing d with
  | nil => rfl
  | cons a L ih => rw [List.map_cons, List.getLastD_cons, List.getLastD_cons, ih]

/-! ## The claims -/

/-- C3: for every request, once the Docker client has been acquired every
failure is caught and converted into a normal result dictionary; the call
raises an exception exactly when the client itself could not be acquired
(`get_docker_client`, lines 20-28). -/
theorem claimC3_only_client_acquisition_raises (env : DockerEnv) (code : String)
    (file_paths : List String) (db_config : Option DbConfig) (timeoutArg : Option Int) :
    (executeModel env code file_paths db_config timeoutArg).result.isOk = env.clientOk := by
  cases hc : env.clientOk with
  | false =>
    have he : (executeModel env code file_paths db_config timeoutArg).result =
        .error ("Failed to connect to Docker: " ++ env.clientErrMsg) := by
      simp [executeModel, hc]
    rw [he]; rfl
  | true =>
    rw [executeModel_result env code file_paths db_config timeoutArg hc]
    obtain ⟨r, hr, -⟩ := runAndCollect_cases env (timeoutArg.getD 60) _ _ _ _ _
    rw [hr]; rfl

/-- C10: every dictionary returned by `execute_python_code` satisfies:
`error` is `None` iff `status` is `"success"`, and on any non-success status
the `output` field is empty and `result_data` is `None`.  (That the record has
exactly the five fields `status`, `output`, `error`, `execution_time`,
`result_data` is the definition of `ExecutionResult`.) -/
theorem claimC10_result_shape (env : DockerEnv) (code : String) (file_paths : List String)
    (db_config : Option DbConfig) (timeoutArg : Option Int) (r : ExecutionResult)
    (h : (executeModel env code file_paths db_config timeoutArg).result = .ok r) :
    (r.error = none ↔ r.status = "success") ∧
      (r.status ≠ "success" → r.output = "" ∧ r.result_data = none) := by
  cases hc : env.clientOk with
  | false => simp [executeModel, hc] at h
  | true =>
    rw [executeModel_result env code file_paths db_config timeoutArg hc] at h
    obtain ⟨r', hr', -, hcase⟩ := runAndCollect_cases env (timeoutArg.getD 60) _ _ _ _ _
    rw [hr'] at h
    have hrr : r' = r := by injection h
    subst hrr
    rcases hcase with ⟨hs, he, ho, hd⟩ | ⟨hs, ⟨m, hm⟩, ho, hd⟩
    · exact ⟨iff_of_true he hs, fun hne => absurd hs hne⟩
    · refine ⟨?_, fun _ => ⟨ho, hd⟩⟩
      rw [hm, hs]
      exact iff_of_false (by simp) (by decide)

/-- C10 witness: the invariants hold for the concrete result of a healthy
run. -/
theorem claimC10_witness :
    (resBaseSuccess.error = none ↔ resBaseSuccess.status = "success") ∧
      (resBaseSuccess.status ≠ "success" →
        resBaseSuccess.output = "" ∧ resBaseSuccess.result_data = none) :=
  claimC10_result_shape envBase "print(42)" [] none none resBaseSuccess rfl

/-- C9: in every returned dictionary, `execution_time` is the difference of
the wall-clock reading taken when the outcome was determined and the reading
taken at the start of the call, rounded to two decimal places, and (the clock
being monotone) it is non-negative; this holds on the success path and on
every error path. -/
theorem claimC9_execution_time (env : DockerEnv) (code : String) (file_paths : List String)
    (db_config : Option DbConfig) (timeoutArg : Option Int) (r : ExecutionResult)
    (hclk : env.clock 0 ≤ env.clock 1)
    (h : (executeModel env code file_paths db_config timeoutArg).result = .ok r) :
    r.execution_time = pythonRound2 (env.clock 1 - env.clock 0) ∧ 0 ≤ r.execution_time := by
  cases hc : env.clientOk with
  | false => simp [executeModel, hc] at h
  | true =>
    rw [executeModel_result env code file_paths db_config timeoutArg hc] at h
    obtain ⟨r', hr', het, -⟩ := runAndCollect_cases env (timeoutArg.getD 60) _ _ _ _ _
    rw [hr'] at h
    have hrr : r' = r := by injection h
    subst hrr
    exact ⟨het, het ▸ pythonRound2_nonneg _ (sub_nonneg.mpr hclk)⟩

/-- C9 witness: concrete evaluation on a healthy run. -/
theorem claimC9_witness :
    resBaseSuccess.execution_time = pythonRound2 (envBase.clock 1 - envBase.clock 0) ∧
      0 ≤ resBaseSuccess.execution_time :=
  claimC9_execution_time envBase "print(42)" [] none none resBaseSuccess (le_refl _) rfl

/-- C1, evaluated at the failing input: a request whose sandbox wait exceeds
the timeout (here 2 seconds).  The model shows that the stop signal *is*
issued and that the error message *does* name the configured timeout, but the
returned status is `"error"`, not `"timeout"`: the exception re-raised at line
148 is caught by the generic handler at line 210, so the `"timeout"` status
promised by the function's own docstring (line 49) is unreachable. -/
theorem claimC1_timeout_misclassified :
    (executeModel envTimedOut "while True: pass" [] none (some 2)).result =
      .ok { status := "error"
            output := ""
            error := some ("Execution failed: Container execution timed out after "
              ++ toString (2 : Int) ++ " seconds")
            execution_time := pythonRound2 (envTimedOut.clock 1 - envTimedOut.clock 0)
            result_data := none } ∧
    ("Execution failed: Container execution timed out after " ++ toString (2 : Int)
        ++ " seconds"
      = "Execution failed: Container execution timed out after 2 seconds") ∧
    Action.stopContainer ∈ (executeModel envTimedOut "while True: pass" [] none (some 2)).trace ∧
    "error" ≠ "timeout" :=
  ⟨rfl, by decide, by decide, by decide⟩

/-- C2: for every request, whose removal primitives succeed, by the time
`execute_python_code` returns the transient code file has been deleted, no
container exists any more and none is running; moreover the temp-file removal
is always attempted, and the forced container removal is attempted whenever a
container was created. -/
theorem claimC2_cleanup (env : DockerEnv) (code : String) (file_paths : List String)
    (db_config : Option DbConfig) (timeoutArg : Option Int)
    (h1 : env.removeOk = true) (h2 : env.tempRemoveOk = true) :
    (executeModel env code file_paths db_config timeoutArg).world.tempFileExists = false ∧
    (executeModel env code file_paths db_config timeoutArg).world.containerExists = false ∧
    (executeModel env code file_paths db_config timeoutArg).world.containerRunning = false ∧
    (env.clientOk = true →
      Action.removeTempFile env.tempPath ∈
        (executeModel env code file_paths db_config timeoutArg).trace) ∧
    (env.clientOk = true → env.runOutcome = RunOutcome.started →
      Action.removeContainerForce ∈
        (executeModel env code file_paths db_config timeoutArg).trace) := by
  cases hc : env.clientOk with
  | false => simp [executeModel, hc]
  | true =>
    simp only [executeModel, hc, eq_self_iff_true, if_true]
    refine ⟨by simp [h2], by simp [h1], ?_, ?_, ?_⟩
    · rw [applyContainerCleanup_running, runAndCollect_running]
    · intro _
      simp
    · intro _ hro
      have hcr : (runAndCollect env (timeoutArg.getD 60) "datagrep-sandbox:latest"
          ["python", "/code/script.py"]
          ((env.tempPath, "/code/script.py", "ro") :: prepareBinds env.hostExists file_paths)
          (prepareEnvVars env.getenv db_config)
          (resolveNetworkName db_config env.networksResult env.cwdBase)).created = true := by
        rw [runAndCollect_created, hro]; rfl
      have := applyContainerCleanup_remove_mem env _ hcr
      simp only [List.mem_append]
      exact Or.inl (Or.inr this)

/-- C2 witness: cleanup on a healthy run. -/
theorem claimC2_witness :
    (executeModel envBase "print(42)" [] none none).world.tempFileExists = false ∧
    (executeModel envBase "print(42)" [] none none).world.containerExists = false ∧
    (executeModel envBase "print(42)" [] none none).world.containerRunning = false ∧
    (envBase.clientOk = true →
      Action.removeTempFile envBase.tempPath ∈
        (executeModel envBase "print(42)" [] none none).trace) ∧
    (envBase.clientOk = true → envBase.runOutcome = RunOutcome.started →
      Action.removeContainerForce ∈ (executeModel envBase "print(42)" [] none none).trace) :=
  claimC2_cleanup envBase "print(42)" [] none none rfl rfl

/-- C6: when the sandbox image is absent, the request ends with status
`"error"` and the fixed "not provisioned" message of line 206, and that
message can never coincide with a message of the generic runtime-failure
handler (line 215), which always starts with `Execution failed: `. -/
theorem claimC6_image_not_found (env : DockerEnv) (code : String) (file_paths : List String)
    (db_config : Option DbConfig) (timeoutArg : Option Int)
    (h1 : env.clientOk = true) (h2 : env.runOutcome = RunOutcome.imageNotFound) :
    (executeModel env code file_paths db_config timeoutArg).result =
      .ok { status := "error"
            output := ""
            error := some "Sandbox image not found. Please build the sandbox image first."
            execution_time := pythonRound2 (env.clock 1 - env.clock 0)
            result_data := none } ∧
    (∀ s : String,
      "Sandbox image not found. Please build the sandbox image first." ≠
        "Execution failed: " ++ s) := by
  constructor
  · rw [executeModel_result env code file_paths db_config timeoutArg h1]
    simp only [runAndCollect, h2]
  · intro s h
    have hd := congrArg String.data h
    rw [String.data_append] at hd
    have hh : some 'S' = some 'E' := congrArg List.head? hd
    exact absurd hh (by decide)

/-- C6 witness: concrete evaluation with the image absent. -/
theorem claimC6_witness :
    (executeModel envNoImage "print(42)" [] none none).result =
      .ok { status := "error"
            output := ""
            error := some "Sandbox image not found. Please build the sandbox image first."
            execution_time := pythonRound2 (envNoImage.clock 1 - envNoImage.clock 0)
            result_data := none } ∧
    ("Sandbox image not found. Please build the sandbox image first." ≠
      "Execution failed: " ++ "division by zero") :=
  ⟨(claimC6_image_not_found envNoImage "print(42)" [] none none rfl rfl).1,
    (claimC6_image_not_found envNoImage "print(42)" [] none none rfl rfl).2 "division by zero"⟩

/-- `os.path.exists` returning false on a path removes it from the mount
plan without any other effect. -/
theorem prepareBinds_cons_of_not_exists (hostExists : String → Bool) (p : String)
    (file_paths : List String) (h : hostExists p = false) :
    prepareBinds hostExists (p :: file_paths) = prepareBinds hostExists file_paths := by
  simp [prepareBinds, List.filterMap_cons, h]

/-- C5 counterexample: the claim "a request is only executed when its
timeout_seconds is a positive integer" fails: a request with timeout 0 is
executed in full (the container is run and waited on with timeout 0 and the
call returns normally); no validation happens on entry. -/
theorem claimC5_counterexample :
    (executeModel envBase "print(42)" [] none (some 0)).result.isOk = true ∧
    Action.waitContainer 0 ∈ (executeModel envBase "print(42)" [] none (some 0)).trace ∧
    ¬(0 < (0 : Int)) :=
  ⟨rfl, by decide, by decide⟩

/-- C5 amended: when the caller omits `timeout` the default of 60 seconds is
applied (Python default argument, line 35), but no positivity validation is
performed: whatever integer is supplied, positive or not, is passed unchanged
to the container wait. -/
theorem claimC5_default_timeout (env : DockerEnv) (code : String) (file_paths : List String)
    (db_config : Option DbConfig) :
    executeModel env code file_paths db_config none =
      executeModel env code file_paths db_config (some 60) ∧
    (∀ t : Int, env.clientOk = true → env.runOutcome = RunOutcome.started →
      Action.waitContainer t ∈ (executeModel env code file_paths db_config (some t)).trace) := by
  refine ⟨rfl, fun t hc hro => ?_⟩
  simp only [executeModel, hc, eq_self_iff_true, if_true, Option.getD_some]
  simp only [List.mem_append]
  exact Or.inl (Or.inr (applyContainerCleanup_trace_mem _ _ _
    (runAndCollect_wait_mem _ _ _ _ _ _ _ hro)))

/-- C5 witness: the default and the pass-through at a concrete input. -/
theorem claimC5_witness :
    executeModel envBase "print(42)" [] none none =
      executeModel envBase "print(42)" [] none (some 60) ∧
    Action.waitContainer 60 ∈ (executeModel envBase "print(42)" [] none (some 60)).trace :=
  ⟨(claimC5_default_timeout envBase "print(42)" [] none).1,
    (claimC5_default_timeout envBase "print(42)" [] none).2 60 rfl rfl⟩

/-- A resolved network name requires `db_config` present, a successful
network listing, and the name to be a listed candidate. -/
theorem resolveNetworkName_some (db_config : Option DbConfig)
    (networksResult : Option (List String)) (cwdBase : String) (n : String)
    (h : resolveNetworkName db_config networksResult cwdBase = some n) :
    db_config.isSome = true ∧ ∃ nets, networksResult = some nets ∧
      n ∈ possibleNames cwdBase ∧ n ∈ nets := by
  match db_config, networksResult with
  | none, _ => exact absurd h (by simp [resolveNetworkName])
  | some cfg, none => exact absurd h (by simp [resolveNetworkName])
  | some cfg, some nets =>
    simp only [resolveNetworkName] at h
    have hp : nets.contains n = true := List.find?_some h
    exact ⟨rfl, nets, rfl, List.mem_of_find?_eq_some h, List.mem_of_elem_eq_true hp⟩

/-- C7: a named network is attached only when `db_config` is present and one
of the candidate names (exact target or deployment-tool-prefixed variant) is
among the networks listed by the Docker client; with `db_config` absent, with
the listing raising, or with no candidate matching, no network is attached;
and in every case the container run is still issued and the call still
returns a normal result. -/
theorem claimC7_network_resolution (env : DockerEnv) (code : String) (file_paths : List String)
    (db_config : Option DbConfig) (timeoutArg : Option Int) :
    (∀ n, resolveNetworkName db_config env.networksResult env.cwdBase = some n →
      db_config.isSome = true ∧ ∃ nets, env.networksResult = some nets ∧
        n ∈ possibleNames env.cwdBase ∧ n ∈ nets) ∧
    (db_config = none → resolveNetworkName db_config env.networksResult env.cwdBase = none) ∧
    (env.networksResult = none →
      resolveNetworkName db_config env.networksResult env.cwdBase = none) ∧
    (∀ nets, env.networksResult = some nets →
      (∀ m ∈ possibleNames env.cwdBase, m ∉ nets) →
      resolveNetworkName db_config env.networksResult env.cwdBase = none) ∧
    (env.clientOk = true →
      Action.runContainer "datagrep-sandbox:latest" ["python", "/code/script.py"]
          ((env.tempPath, "/code/script.py", "ro") :: prepareBinds env.hostExists file_paths)
          (prepareEnvVars env.getenv db_config)
          (resolveNetworkName db_config env.networksResult env.cwdBase) ∈
        (executeModel env code file_paths db_config timeoutArg).trace ∧
      (executeModel env code file_paths db_config timeoutArg).result.isOk = true) := by
  refine ⟨?_, ?_, ?_, ?_, ?_⟩
  · intro n h
    exact resolveNetworkName_some db_config env.networksResult env.cwdBase n h
  · intro h; rw [h]; rfl
  · intro h
    cases db_config with
    | none => rfl
    | some cfg => simp [resolveNetworkName, h]
  · intro nets hn hnone
    cases db_config with
    | none => rfl
    | some cfg =>
      simp only [resolveNetworkName, hn, List.find?_eq_none]
      exact fun m hm hcont => hnone m hm (List.mem_of_elem_eq_true hcont)
  · intro hc
    constructor
    · simp only [executeModel, hc, eq_self_iff_true, if_true]
      simp only [List.mem_append]
      exact Or.inl (Or.inr (applyContainerCleanup_trace_mem _ _ _
        (runAndCollect_run_mem _ _ _ _ _ _ _)))
    · rw [executeModel_result env code file_paths db_config timeoutArg hc]
      obtain ⟨r, hr, -⟩ := runAndCollect_cases env (timeoutArg.getD 60) _ _ _ _ _
      rw [hr]; rfl

/-- C7 witness: with `db_config` absent nothing is resolved and the
execution proceeds. -/
theorem claimC7_witness :
    (resolveNetworkName none envBase.networksResult envBase.cwdBase = none) ∧
    ((executeModel envBase "print(42)" [] none none).result.isOk = true) :=
  ⟨(claimC7_network_resolution envBase "print(42)" [] none none).2.1 rfl,
    ((claimC7_network_resolution envBase "print(42)" [] none none).2.2.2.2 rfl).2⟩

/-- C8: the mount plan contains exactly the requested paths that exist on the
host, each bound read-only to `/data/<basename>`; a non-existing path is
silently skipped: it changes nothing about the call's behaviour at all (same
result, same final state, same trace). -/
theorem claimC8_mounts (env : DockerEnv) (file_paths : List String) (p sp m : String) :
    (((p, sp, m) ∈ prepareBinds env.hostExists file_paths) ↔
      (p ∈ file_paths ∧ env.hostExists p = true ∧ sp = "/data/" ++ pyBasename p ∧ m = "ro")) ∧
    (env.hostExists p = false → ∀ code db_config timeoutArg,
      executeModel env code (p :: file_paths) db_config timeoutArg =
        executeModel env code file_paths db_config timeoutArg) := by
  constructor
  · constructor
    · intro hmem
      rw [prepareBinds, List.mem_filterMap] at hmem
      obtain ⟨a, ha, hf⟩ := hmem
      by_cases hha : env.hostExists a = true
      · rw [if_pos hha] at hf
        injection hf with hf
        rw [Prod.ext_iff] at hf
        obtain ⟨h1, hf2⟩ := hf
        rw [Prod.ext_iff] at hf2
        obtain ⟨h2, h3⟩ := hf2
        subst h1
        exact ⟨ha, hha, h2.symm, h3.symm⟩
      · rw [if_neg hha] at hf
        exact absurd hf (by simp)
    · rintro ⟨hp, hhost, hsp, hm⟩
      rw [prepareBinds, List.mem_filterMap]
      exact ⟨p, hp, by rw [if_pos hhost, hsp, hm]⟩
  · intro hf code db_config timeoutArg
    unfold executeModel
    rw [prepareBinds_cons_of_not_exists env.hostExists p file_paths hf]

/-- C8 witness: an existing path is mounted; a missing one changes nothing. -/
theorem claimC8_witness :
    (("/tmp/a.csv", "/data/" ++ pyBasename "/tmp/a.csv", "ro") ∈
      prepareBinds envBase.hostExists ["/tmp/a.csv"]) ∧
    executeModel envBase "print(42)" ["/nope.csv"] none none =
      executeModel envBase "print(42)" [] none none :=
  ⟨((claimC8_mounts envBase ["/tmp/a.csv"] "/tmp/a.csv"
        ("/data/" ++ pyBasename "/tmp/a.csv") "ro").1).mpr
      ⟨by decide, rfl, rfl, rfl⟩,
    (claimC8_mounts envBase [] "/nope.csv" "" "").2 (by decide) "print(42)" none none⟩

/-- C4: for every captured output text, the source's recovery (strip, split,
try the last line, else try the whole text, else nothing) computes exactly
the claim's case split: if the last non-empty line parses as a
self-contained JSON value, `result_data` is that value; otherwise, if the
entire output parses, that value; otherwise `result_data` is absent — for
any parser that ignores surrounding whitespace, as `json.loads` does. -/
theorem claimC4_output_interpreter (loads : String → Option JsonValue)
    (hws : ∀ s, loads (pyStrip s) = loads s) (text : String) :
    interpretOutput loads text = interpretSpec loads text := by
  unfold interpretOutput interpretSpec
  dsimp only
  have hne : (pySplitNL (pyStrip text)).isEmpty = false := by
    unfold pySplitNL
    cases hsp : splitLinesL (pyStrip text).data with
    | nil => exact absurd hsp (splitLinesL_ne_nil _)
    | cons a b => rfl
  rw [hne, if_neg (by decide : ¬(false = true))]
  have hkey : loads ((pySplitNL (pyStrip text)).getLastD "") =
      loads (lastNonEmptyLineSpec text) := by
    have hmap : (pySplitNL (pyStrip text)).getLastD "" =
        String.mk ((splitLinesL (pyStrip text).data).getLastD []) :=
      map_mk_getLastD _ []
    rw [hmap]
    have hstr : pyStrip (String.mk ((splitLinesL (pyStrip text).data).getLastD [])) =
        pyStrip (lastNonEmptyLineSpec text) :=
      congrArg String.mk (stripList_code_spec_last text.data)
    calc loads (String.mk ((splitLinesL (pyStrip text).data).getLastD []))
        = loads (pyStrip (String.mk ((splitLinesL (pyStrip text).data).getLastD []))) :=
          (hws _).symm
      _ = loads (pyStrip (lastNonEmptyLineSpec text)) := by rw [hstr]
      _ = loads (lastNonEmptyLineSpec text) := hws _
  rw [hkey, hws text]

/-- C4 witness: a concrete whitespace-insensitive parser on a text whose
last non-empty line is ` 7 ` followed by a blank line. -/
theorem claimC4_witness :
    interpretOutput loadsW "junk\n 7 \n  " = interpretSpec loadsW "junk\n 7 \n  " :=
  claimC4_output_interpreter loadsW
    (fun s => by unfold loadsW; rw [pyStrip_idem]) "junk\n 7 \n  "

end CodeExecutor
